import Mathlib

/-!
Verification of the go-params command-line parameter parsing package
(`params.go`).  The Go source is shallowly embedded: each Go function is
translated into a Lean function over explicit state; machine integers are
`Nat`/`Int` with explicit wrapping where Go converts between widths;
operations that can fail return `Option`, where `none` models a run that
does not return normally (a runtime fault such as an out-of-range index,
or a loop that never terminates).
-/

namespace GoParams

/-! ## String helpers

Go strings are UTF-8 byte sequences, but every scan in `params.go` walks
them rune by rune with `utf8.DecodeRuneInString`, so strings are modelled
through their character lists.  `goLen` models Go `len(s)` (UTF-8 bytes);
`rlen` models the source's `rlen` helper (`utf8.RuneCount`). -/

/-- Models Go `len(s)`: the UTF-8 byte length of a string. -/
def goLen (s : String) : Nat := (s.data.map Char.utf8Size).sum

/-- Models the source's `rlen`: the rune count of a string. -/
def rlen (s : String) : Nat := s.length

/-- First character of a string, if any (models reading byte 0 of a Go
string, which for a valid UTF-8 string determines the first rune when the
compared byte is ASCII). -/
def strHead (s : String) : Option Char := s.data.head?

/-- Drop the first character (models `s[n:]` where `n` is the byte size of
the first rune). -/
def strTail (s : String) : String := String.mk s.data.tail

/-- Drop the first `n` characters (used only to strip the ASCII prefix
`--`, where characters and bytes agree). -/
def strDrop (n : Nat) (s : String) : String := String.mk (s.data.drop n)

/-- Split off the first rune of a nonempty string, as
`utf8.DecodeRuneInString` followed by slicing does. -/
def decodeFirst (s : String) : Char × String :=
  match s.data with
  | [] => (default, "")
  | c :: rest => (c, String.mk rest)

/-- One-character string. -/
def charToStr (c : Char) : String := String.mk [c]

/-- Second character equals `-` (models the byte test `a[1] == '-'` on a
string whose first character is the one-byte rune `-`). -/
def secondIsDash (s : String) : Bool :=
  match s.data with
  | _ :: c :: _ => c = '-'
  | _ => false

/-- Byte-wise lexicographic comparison of Go strings, expressed on
characters (UTF-8 preserves code-point order, so byte order and
code-point order agree).  Models the order used by `sort.StringSlice`. -/
def lexLt : List Char → List Char → Bool
  | [], [] => false
  | [], _ :: _ => true
  | _ :: _, [] => false
  | a :: as, b :: bs =>
    if a < b then true else if b < a then false else lexLt as bs

/-- String comparison via `lexLt`. -/
def strLt (a b : String) : Bool := lexLt a.data b.data

/-! ## Conversion errors

`strconv` reports parse failures as either a syntax error or a range
error; `params.go` only ever inspects nilness of the error, but the two
kinds stay distinguishable in the returned value. -/

/-- Error kinds produced by the value conversions (`strconv.ErrSyntax`
versus `strconv.ErrRange`). -/
inductive ConvErr where
  | badParse
  | outOfRange
deriving DecidableEq

/-! ## Numeric parsing (models of the Go standard library)

`params.go` calls `strconv.ParseBool`, `strconv.ParseInt(s, 0, 64)` and
`strconv.ParseUint(s, 0, 64)`.  These external library functions are
modelled from their documented behaviour: base detection from the `0x` /
`0o` / `0b` / leading-`0` prefixes, digit accumulation, and clamping with
a range error on overflow.  Digit-separator underscores are not modelled
(no input in this development contains one). -/

/-- Models `strconv.ParseBool`: accepts `1 t T TRUE true True` and
`0 f F FALSE false False`; like the Go function it returns `false`
together with the error on bad input. -/
def parseBoolGo (s : String) : Bool × Option ConvErr :=
  if s = "1" ∨ s = "t" ∨ s = "T" ∨ s = "true" ∨ s = "TRUE" ∨ s = "True" then
    (true, none)
  else if s = "0" ∨ s = "f" ∨ s = "F" ∨ s = "false" ∨ s = "FALSE" ∨ s = "False" then
    (false, none)
  else
    (false, some ConvErr.badParse)

/-- Digit value of a character, as `strconv` assigns them. -/
def digitVal (c : Char) : Option Nat :=
  if '0' ≤ c ∧ c ≤ '9' then some (c.toNat - 48)
  else if 'a' ≤ c ∧ c ≤ 'z' then some (c.toNat - 97 + 10)
  else if 'A' ≤ c ∧ c ≤ 'Z' then some (c.toNat - 65 + 10)
  else none

/-- Digit-accumulation loop of `strconv.ParseUint`: invalid digits give a
syntax error with value 0; exceeding `maxVal` gives a range error with
the clamped value `maxVal`. -/
def parseDigits (base maxVal : Nat) : List Char → Nat → Nat × Option ConvErr
  | [], n => (n, none)
  | c :: cs, n =>
    match digitVal c with
    | none => (0, some ConvErr.badParse)
    | some d =>
      if d ≥ base then (0, some ConvErr.badParse)
      else
        let n1 := n * base + d
        if n1 > maxVal then (maxVal, some ConvErr.outOfRange)
        else parseDigits base maxVal cs n1

/-- Base detection of `strconv.ParseUint` with base argument 0: a prefix
`0b`/`0o`/`0x` (needing at least one digit after it, hence the length-3
requirement) selects the base, a bare leading `0` selects octal. -/
def baseAndDigits (cs : List Char) : Nat × List Char :=
  match cs with
  | '0' :: c :: rest =>
    if (c = 'b' ∨ c = 'B') ∧ rest ≠ [] then (2, rest)
    else if (c = 'o' ∨ c = 'O') ∧ rest ≠ [] then (8, rest)
    else if (c = 'x' ∨ c = 'X') ∧ rest ≠ [] then (16, rest)
    else (8, c :: rest)
  | '0' :: [] => (8, [])
  | _ => (10, cs)

/-- Models `strconv.ParseUint(s, 0, bitSize)`. -/
def parseUintGo (s : String) (bitSize : Nat) : Nat × Option ConvErr :=
  if s = "" then (0, some ConvErr.badParse)
  else
    let (base, digits) := baseAndDigits s.data
    parseDigits base (2 ^ bitSize - 1) digits 0

/-- Models `strconv.ParseInt(s, 0, bitSize)`: optional sign, then
`ParseUint`, then clamping to the signed range with a range error. -/
def parseIntGo (s : String) (bitSize : Nat) : Int × Option ConvErr :=
  if s = "" then (0, some ConvErr.badParse)
  else
    let (neg, s1) :=
      match s.data with
      | '+' :: rest => (false, rest)
      | '-' :: rest => (true, rest)
      | l => (false, l)
    let (un, e) := parseUintGo (String.mk s1) bitSize
    match e with
    | some ConvErr.badParse => (0, some ConvErr.badParse)
    | _ =>
      let cutoff : Nat := 2 ^ (bitSize - 1)
      if ¬neg ∧ un ≥ cutoff then ((cutoff : Int) - 1, some ConvErr.outOfRange)
      else if neg ∧ un > cutoff then (-(cutoff : Int), some ConvErr.outOfRange)
      else ((if neg then -(un : Int) else (un : Int)), none)

/-- Two's-complement wrap of an `int64` value into a `W`-bit signed
integer (models Go's conversion `int(v)` on a platform whose `int` is `W`
bits wide). -/
def wrapSigned (W : Nat) (v : Int) : Int :=
  let m : Int := 2 ^ W
  let r := v % m
  if r ≥ 2 ^ (W - 1) then r - m else r

/-- Wrap of a `uint64` value into a `W`-bit unsigned integer. -/
def wrapUnsigned (W : Nat) (v : Nat) : Nat := v % 2 ^ W

/-! ## The value model

`params.go` stores a flag's state behind the `Value` interface.  The
package-provided implementations are `presentValue`, `boolValue`,
`intValue`, `int64Value`, `uintValue`, `uint64Value`, `stringValue`,
`float64Value`, `durationValue` and `funcValue`; callers may supply their
own (`Var` accepts any `Value`, and the test suite registers such
values).  The float and duration variants are not modelled (their parsers
are floating-point based); `user` models a caller-supplied `Value` that
records every token list passed to its `Set` and never fails, with a
caller-chosen answer to the `IsBoolFlag` capability query (compare the
`boolFlag` interface in `params.go` and `boolFlagVar` in
`params_test.go`). -/

inductive Value where
  | present (b : Bool)
  | boolean (b : Bool)
  | intV (v : Int)
  | int64V (v : Int)
  | uintV (v : Nat)
  | uint64V (v : Nat)
  | strV (s : String)
  | user (isBool : Bool) (calls : List (List String))
deriving DecidableEq

/-- Constructor tag, used to state that two values are the same variant. -/
def Value.tag : Value → Nat
  | .present _ => 0
  | .boolean _ => 1
  | .intV _ => 2
  | .int64V _ => 3
  | .uintV _ => 4
  | .uint64V _ => 5
  | .strV _ => 6
  | .user _ _ => 7

/-- True for the variants implemented inside `params.go` (the `user`
variant stands for arbitrary caller-supplied code). -/
def Value.builtin : Value → Bool
  | .user _ _ => false
  | _ => true

/-- The `IsBoolFlag` capability query (the `boolFlag` interface):
`boolValue` declares it, caller-supplied values may. -/
def Value.isBoolCapable : Value → Bool
  | .boolean _ => true
  | .user b _ => b
  | _ => false

/-- The `Set` method of each value variant, translated from `params.go`.
`W` is the bit width of the platform's `int`/`uint`.  The result is the
new stored value together with the returned error; `none` models a
runtime fault (each builtin single-token variant indexes `s[0]`, which
faults on an empty token list). -/
def valueSet (W : Nat) : Value → List String → Option (Value × Option ConvErr)
  | .present _, _ => some (.present true, none)
  | .boolean _, toks =>
    match toks.head? with
    | none => none
    | some t =>
      let (v, e) := parseBoolGo t
      some (.boolean v, e)
  | .intV _, toks =>
    match toks.head? with
    | none => none
    | some t =>
      let (v, e) := parseIntGo t 64
      some (.intV (wrapSigned W v), e)
  | .int64V _, toks =>
    match toks.head? with
    | none => none
    | some t =>
      let (v, e) := parseIntGo t 64
      some (.int64V v, e)
  | .uintV _, toks =>
    match toks.head? with
    | none => none
    | some t =>
      let (v, e) := parseUintGo t 64
      some (.uintV (wrapUnsigned W v), e)
  | .uint64V _, toks =>
    match toks.head? with
    | none => none
    | some t =>
      let (v, e) := parseUintGo t 64
      some (.uint64V v, e)
  | .strV _, toks =>
    match toks.head? with
    | none => none
    | some t => some (.strV t, none)
  | .user b calls, toks => some (.user b (calls ++ [toks]), none)

/-- The `String` method of each variant (`fmt.Sprintf` with `%v`, or the
empty string for `funcValue`-like caller-supplied values). -/
def valueString : Value → String
  | .present b => if b then "true" else "false"
  | .boolean b => if b then "true" else "false"
  | .intV v => toString v
  | .int64V v => toString v
  | .uintV n => toString n
  | .uint64V n => toString n
  | .strV s => s
  | .user _ _ => ""

/-! ## `splitOn`

The source's `splitOn` walks the string rune by rune with a manually
incremented byte index.  It is embedded as a small-step machine: the state
holds the unread characters, the current segment buffer, and the output
so far.  Crucially, when the separator is read while the buffer is empty,
the source executes `continue` without advancing the index, so the step
relation leaves the state unchanged: the loop never terminates from such
a state.  `splitOn` therefore runs the machine on a fuel budget that is
sufficient for every terminating run, returning `none` exactly when the
loop diverges. -/

structure SplitSt where
  rest : List Char
  line : String
  out : List String
deriving DecidableEq

/-- One iteration of the `splitOn` loop: `Sum.inl` is the next state,
`Sum.inr` the function's result when the loop exits. -/
def splitOnStep (c : Char) (count : Int) : SplitSt → SplitSt ⊕ List String
  | ⟨[], line, out⟩ =>
    Sum.inr (out ++ (if line ≠ "" then [line] else []))
  | ⟨r :: rs, line, out⟩ =>
    if r = c then
      if line = "" then
        Sum.inl ⟨r :: rs, line, out⟩
      else
        let out1 := out ++ [line]
        if (out1.length : Int) = count - 1 then
          Sum.inr (out1 ++ (if rs ≠ [] then [String.mk rs] else []))
        else
          Sum.inl ⟨rs, "", out1⟩
    else
      Sum.inl ⟨rs, line.push r, out⟩

/-- Run the `splitOn` loop for at most `fuel` iterations. -/
def splitOnFuel (c : Char) (count : Int) : Nat → SplitSt → Option (List String)
  | 0, _ => none
  | fuel + 1, st =>
    match splitOnStep c count st with
    | Sum.inl st1 => splitOnFuel c count fuel st1
    | Sum.inr res => res

/-- The source's `splitOn(str, c, count)`.  Every terminating run consumes
at least one character per iteration, so `str.length + 1` iterations
suffice; `none` means the loop never exits. -/
def splitOn (str : String) (c : Char) (count : Int) : Option (List String) :=
  splitOnFuel c count (str.length + 1) ⟨str.data, "", []⟩

/-! ## Flags and flag sets -/

/-- A `Flag` record (`params.go`): names, usage text, current value,
cached default representation, type hint and declared argument count. -/
structure Flag where
  name : List String
  usage : String
  value : Value
  defValue : String
  typeExpected : String
  argsNeeded : Int
deriving DecidableEq

/-- The fields of a `Flag` other than its mutable value. -/
def flagSig (fl : Flag) : List String × String × String × String × Int :=
  (fl.name, fl.usage, fl.defValue, fl.typeExpected, fl.argsNeeded)

inductive ErrorHandling where
  | continueOnError
  | exitOnError
  | panicOnError
deriving DecidableEq

/-- Errors produced while parsing, kept structural: each constructor
corresponds to one `failf` format string of `params.go` (or to the
`ErrHelp` sentinel) and carries the values interpolated into it. -/
inductive ParseErr where
  | help
  | emptyName (knownAs arg : String)
  | unknownFlag (knownAs display : String)
  | unwantedArg (knownAs found display : String)
  | needsParam (knownAs display : String)
  | needsMoreThanOne (knownAs display : String)
  | notEnough (knownAs display : String)
  | invalidValue (value : String) (knownAs display : String) (e : ConvErr)
  | invalidValues (value : List String) (knownAs display : String) (e : ConvErr)
deriving DecidableEq

/-- A `FlagSet`.  The Go `formal` map is an association list from names to
indices into `records` (all aliases of one flag map to the same index,
mirroring the shared `*Flag` pointers); `actual` holds the keys of the
triggered map; `usageCalled` records the output effect of `f.usage()`
(invoked by `failf` and by the implicit help path). -/
structure FlagSet where
  usageCalled : Bool := false
  name : String := ""
  parsed : Bool := false
  actual : List String := []
  formal : List (String × Nat) := []
  records : List Flag := []
  args : List String := []
  procArgs : List String := []
  procFlag : String := ""
  allowIntersperse : Bool := false
  errorHandling : ErrorHandling := .continueOnError
  usageIndent : Int := 0
  flagKnownAs : String := "parameter"
deriving DecidableEq

/-- Map lookup in the `formal` association list. -/
def lookupName (formal : List (String × Nat)) (n : String) : Option Nat :=
  match formal.find? (fun p => p.1 = n) with
  | some p => some p.2
  | none => none

/-- `f.actual[name] = flag`: record a name as triggered (map-key
semantics, so membership is what matters). -/
def insertActual (actual : List String) (n : String) : List String :=
  if n ∈ actual then actual else actual ++ [n]

/-- The source's `flagWithMinus`: single-rune names get `-`, longer names
get `--`. -/
def flagWithMinus (name : String) : String :=
  if rlen name > 1 then "--" ++ name else "-" ++ name

/-! ## The tokenizer (`parseOne`) -/

/-- One classification step, translated from `FlagSet.parseOne`.  Returns
the updated state, the candidate flag name (empty when the step produced
no flag), the long-form marker, the finished marker and an error.
`none` models a call that does not return (only reachable through a
diverging `splitOn`, which cannot happen for the `--`-prefixed arguments
this call site passes). -/
def parseOne (f : FlagSet) : Option (FlagSet × String × Bool × Bool × Option ParseErr) :=
  match f.procArgs with
  | [] => some (f, "", false, true, none)
  | a :: rest =>
    if f.procFlag ≠ "" then
      -- processing a previously encountered single-rune flag cluster
      let (c, restFlag) := decodeFirst f.procFlag
      some ({ f with procFlag := restFlag }, charToStr c, false, false, none)
    else if a = "-" ∨ a = "" ∨ strHead a ≠ some '-' then
      -- one non-flag argument
      if f.allowIntersperse then
        some ({ f with args := f.args ++ [a], procArgs := rest }, "", false, false, none)
      else
        some ({ f with args := f.args ++ (a :: rest), procArgs := [] }, "", false, true, none)
    else if a = "--" then
      -- end of flags
      some ({ f with args := f.args ++ rest, procArgs := [] }, "", false, true, none)
    else if secondIsDash a then
      -- long flag signified with a "--" prefix
      match splitOn a '=' 2 with
      | none => none
      | some parts =>
        if parts.length > 1 then
          let flagName := strDrop 2 (parts.headD "")
          let f1 := { f with procFlag := parts.getD 1 "", procArgs := rest }
          if flagName = "" then
            some (f1, flagName, true, false, some (.emptyName f.flagKnownAs a))
          else
            some (f1, flagName, true, false, none)
        else
          some ({ f with procArgs := rest }, strDrop 2 a, true, false, none)
    else
      -- some number of single-rune flags
      let a1 := strTail a
      let (c, after) := decodeFirst a1
      if strHead after = some '=' then
        some ({ f with procFlag := strTail after, procArgs := rest }, charToStr c, false, false, none)
      else
        some ({ f with procFlag := after, procArgs := rest }, charToStr c, false, false, none)

/-! ## Flag resolution (`parseFlagArg`) -/

/-- Resolution of a candidate name, translated from
`FlagSet.parseFlagArg`.  Returns the updated state, the finished marker
and an error; `none` models a runtime fault inside the value's `Set`. -/
def parseFlagArg (W : Nat) (f : FlagSet) (name : String) (long : Bool) :
    Option (FlagSet × Bool × Option ParseErr) :=
  match lookupName f.formal name with
  | none =>
    if name = "help" ∨ name = "h" then
      -- special case for a nice help message
      some ({ f with usageCalled := true }, false, some .help)
    else
      some ({ f with usageCalled := true }, false,
        some (.unknownFlag f.flagKnownAs (flagWithMinus name)))
  | some idx =>
    match f.records.get? idx with
    | none => none
    | some flag =>
      if flag.argsNeeded = 0 then
        -- the parameter does not need an argument; the Set error is dropped
        match valueSet W flag.value [] with
        | none => none
        | some (v1, _) =>
          let f1 := { f with records := f.records.set idx { flag with value := v1 } }
          if f1.procFlag ≠ "" ∧ long then
            some ({ f1 with procFlag := "", usageCalled := true }, false,
              some (.unwantedArg f1.flagKnownAs f1.procFlag (flagWithMinus name)))
          else
            some ({ f1 with actual := insertActual f1.actual name }, false, none)
      else if flag.argsNeeded = 1 then
        -- it must have a value, which might be the next argument
        let (hasValue, value, f1) :=
          if f.procFlag ≠ "" then (true, f.procFlag, { f with procFlag := "" })
          else
            match f.procArgs with
            | v :: restA => (true, v, { f with procArgs := restA })
            | [] => (false, "", f)
        if ¬hasValue then
          some ({ f1 with usageCalled := true }, false,
            some (.needsParam f1.flagKnownAs (flagWithMinus name)))
        else
          match valueSet W flag.value [value] with
          | none => none
          | some (v1, e) =>
            let f2 := { f1 with records := f1.records.set idx { flag with value := v1 } }
            match e with
            | some e1 =>
              some ({ f2 with usageCalled := true }, false,
                some (.invalidValue value f2.flagKnownAs (flagWithMinus name) e1))
            | none =>
              some ({ f2 with actual := insertActual f2.actual name }, false, none)
      else
        -- fixed multi-value arity
        if f.procFlag ≠ "" then
          some ({ f with usageCalled := true }, false,
            some (.needsMoreThanOne f.flagKnownAs (flagWithMinus name)))
        else if (f.procArgs.length : Int) < flag.argsNeeded then
          some ({ f with usageCalled := true }, false,
            some (.notEnough f.flagKnownAs (flagWithMinus name)))
        else
          let toks := f.procArgs.take flag.argsNeeded.toNat
          match valueSet W flag.value toks with
          | none => none
          | some (v1, e) =>
            let f2 := { f with records := f.records.set idx { flag with value := v1 } }
            match e with
            | some e1 =>
              some ({ f2 with usageCalled := true }, false,
                some (.invalidValues toks f2.flagKnownAs (flagWithMinus name) e1))
            | none =>
              -- NOTE: the source does not advance f.procArgs here
              some ({ f2 with actual := insertActual f2.actual name }, false, none)

/-! ## The parse loop -/

/-- How a call to `Parse` ends: a normal return (`ok` or `err` under the
propagate policy), a process exit, or a propagated Go panic. -/
inductive Outcome where
  | ok
  | err (e : ParseErr)
  | exitCode (n : Nat)
  | panicked (e : ParseErr)
deriving DecidableEq

/-- The body of `FlagSet.Parse`'s `for` loop, on a fuel budget (each
iteration consumes an argument token or a rune of the pending cluster, so
any sufficient fuel gives the loop's exact behaviour; `none` means the
fuel ran out or a modelled runtime fault occurred). -/
def parseLoop (W : Nat) : Nat → FlagSet → Option (FlagSet × Outcome)
  | 0, _ => none
  | fuel + 1, f =>
    match parseOne f with
    | none => none
    | some (f1, nm, long, finished0, err0) =>
      let step : Option (FlagSet × Bool × Option ParseErr) :=
        if ¬finished0 ∧ nm ≠ "" then parseFlagArg W f1 nm long
        else some (f1, finished0, err0)
      match step with
      | none => none
      | some (f2, finished, err) =>
        match err with
        | some e =>
          match f2.errorHandling with
          | .continueOnError => some (f2, .err e)
          | .exitOnError => some (f2, if e = .help then .exitCode 0 else .exitCode 2)
          | .panicOnError => some (f2, .panicked e)
        | none =>
          if finished then some (f2, .ok)
          else parseLoop W fuel f2

/-- The state initialisation at the top of `FlagSet.Parse`. -/
def parseInit (f : FlagSet) (arguments : List String) : FlagSet :=
  { f with parsed := true, procArgs := arguments, procFlag := "", args := [] }

/-- A fuel budget sufficient for any run of the parse loop over the given
arguments. -/
def parseFuel (arguments : List String) : Nat :=
  arguments.foldl (fun n a => n + a.length + 2) 1

/-- `FlagSet.Parse`, assembled from the initialisation and the loop. -/
def parse (W : Nat) (f : FlagSet) (arguments : List String) :
    Option (FlagSet × Outcome) :=
  parseLoop W (parseFuel arguments) (parseInit f arguments)

/-! ## Registration (`Var`) -/

/-- The per-name registration loop of `Var`; `none` models the
redefinition panic. -/
def registerNames (recIdx : Nat) :
    List String → List (String × Nat) → Option (List (String × Nat))
  | [], formal => some formal
  | n :: rest, formal =>
    if (lookupName formal n).isSome then none
    else registerNames recIdx rest (formal ++ [(n, recIdx)])

/-- `FlagSet.Var`: split the space-separated name list, normalise a
leading single-rune name behind its multi-rune alias, capture the default
representation, and register every name against the shared record.
`none` models a diverging `splitOn` (doubled or leading space) or the
redefinition panic. -/
def Var (f : FlagSet) (value : Value) (flagStr usage typeExp : String)
    (args : Int) : Option FlagSet :=
  match splitOn flagStr ' ' (-1) with
  | none => none
  | some names0 =>
    let names :=
      match names0 with
      | n0 :: n1 :: restN =>
        if rlen n0 = 1 ∧ rlen n1 > 1 then n1 :: n0 :: restN else names0
      | _ => names0
    let flag : Flag :=
      { name := names, usage := usage, value := value,
        defValue := valueString value, typeExpected := typeExp,
        argsNeeded := args }
    match registerNames f.records.length names f.formal with
    | none => none
    | some formal1 =>
      some { f with records := f.records ++ [flag], formal := formal1 }

/-! ## Usage rendering (`PrintDefaults`)

`PrintDefaults` measures names with `runewidth.StringWidth` from the
external `go-runewidth` library; that function is modelled from its
documented East-Asian-width behaviour: a character in the wide/fullwidth
ranges occupies two columns, any other printable character one (the
zero-width combining classes are omitted — no input here contains any). -/

/-- East-Asian wide/fullwidth test (models the width table of
`go-runewidth` on the character ranges relevant here). -/
def isWideRune (c : Char) : Bool :=
  let n := c.toNat
  (0x1100 ≤ n && n ≤ 0x115F) ||
  (0x2E80 ≤ n && n ≤ 0x303E) ||
  (0x3041 ≤ n && n ≤ 0x33FF) ||
  (0x3400 ≤ n && n ≤ 0x4DBF) ||
  (0x4E00 ≤ n && n ≤ 0x9FFF) ||
  (0xA000 ≤ n && n ≤ 0xA4CF) ||
  (0xAC00 ≤ n && n ≤ 0xD7A3) ||
  (0xF900 ≤ n && n ≤ 0xFAFF) ||
  (0xFE30 ≤ n && n ≤ 0xFE4F) ||
  (0xFF00 ≤ n && n ≤ 0xFF60) ||
  (0xFFE0 ≤ n && n ≤ 0xFFE6) ||
  (0x20000 ≤ n && n ≤ 0x2FFFD) ||
  (0x30000 ≤ n && n ≤ 0x3FFFD)

/-- Display width of one character. -/
def runeWidth (c : Char) : Nat := if isWideRune c then 2 else 1

/-- Models `runewidth.StringWidth`: the display width of a string. -/
def stringWidth (s : String) : Nat := (s.data.map runeWidth).sum

/-- Insertion sort on strings in Go's byte-wise lexicographic order
(models `sort.StringSlice.Sort`, whose result on the collected keys is
order-deterministic even though Go map iteration is not). -/
def insertSorted (x : String) : List String → List String
  | [] => [x]
  | y :: ys => if strLt x y then x :: y :: ys else y :: insertSorted x ys

def sortStrings (l : List String) : List String := l.foldr insertSorted []

/-- First name of the record at index `i` (Go `f.Name[0]`). -/
def firstNameAt (f : FlagSet) (i : Nat) : String :=
  match f.records.get? i with
  | some fl => fl.name.headD ""
  | none => ""

/-- `sortFlags` as an index list: one key per `formal` entry (so an
aliased record contributes one key per alias), sorted, each key looked up
back in the map. -/
def visitIdxs (f : FlagSet) : List Nat :=
  (sortStrings (f.formal.map (fun p => firstNameAt f p.2))).filterMap
    (fun k => lookupName f.formal k)

/-- The `uniqueFlag` deduplication of `PrintDefaults`: keep the first
visit of each canonical (first) name. -/
def dedupIdxsAux (f : FlagSet) : List Nat → List String → List Nat
  | [], _ => []
  | i :: is, seen =>
    let n0 := firstNameAt f i
    if n0 ∈ seen then dedupIdxsAux f is seen
    else i :: dedupIdxsAux f is (n0 :: seen)

def dedupIdxs (f : FlagSet) : List Nat := dedupIdxsAux f (visitIdxs f) []

/-- Canonical first names of the deduplicated records, in visit order. -/
def pdNames (f : FlagSet) : List String := (dedupIdxs f).map (firstNameAt f)

/-- The `maxLen` accumulation of `PrintDefaults`, exactly as written in
the source: the guard compares the *byte length* of a name against the
accumulator, while the assignment stores the name's *display width*. -/
def byteGuardMax : List String → Nat → Nat
  | [], acc => acc
  | n :: ns, acc => byteGuardMax ns (if goLen n > acc then stringWidth n else acc)

/-- The shared column value `maxLen` computed by `PrintDefaults`. -/
def pdMaxLen (f : FlagSet) : Nat := byteGuardMax (pdNames f) 0

/-- The `haveMultiple` scan of `PrintDefaults`. -/
def pdHaveMultiple (f : FlagSet) : Bool :=
  (dedupIdxs f).any (fun i =>
    match f.records.get? i with
    | some fl => fl.name.length > 1
    | none => false)

/-- `padN`: the padding threshold, `maxLen + 4`, or `maxLen + 8` when some
record has more than one name. -/
def pdPadN (f : FlagSet) : Nat :=
  if pdHaveMultiple f then pdMaxLen f + 8 else pdMaxLen f + 4

/-- What the specification says the shared column value is: the maximum
display width over the canonical first names.  Stated from the spec's
words, for comparison with `pdMaxLen` which is translated from the
source. -/
def specMaxDisplayWidth (f : FlagSet) : Nat :=
  (pdNames f).foldl (fun m n => max m (stringWidth n)) 0

/-- The column-padding loop of `PrintDefaults`, on a fuel budget (each
iteration widens the line by exactly one column, so any fuel at least the
threshold makes the fueled loop agree with the `for` loop): append spaces
while `(usageIndent == 0 && width < padN) || width < usageIndent`. -/
def padSpacesFuel (ui : Int) (padN : Nat) : Nat → String → String
  | 0, line => line
  | fuel + 1, line =>
    if (ui = 0 ∧ stringWidth line < padN) ∨ ((stringWidth line : Int) < ui) then
      padSpacesFuel ui padN fuel (line ++ " ")
    else line

/-- The column-padding loop with its sufficient fuel budget. -/
def padSpaces (ui : Int) (padN : Nat) (line : String) : String :=
  padSpacesFuel ui padN (padN + ui.toNat + 1) line

/-- The newline-indent loop of `PrintDefaults`, on a fuel budget: `pad`
starts as a newline and grows spaces while
`(usageIndent == 0 && len(pad) <= padN) || len(pad) <= usageIndent`
(byte lengths). -/
def padNlFuel (ui : Int) (padN : Nat) : Nat → String → String
  | 0, pad => pad
  | fuel + 1, pad =>
    if (ui = 0 ∧ goLen pad ≤ padN) ∨ ((goLen pad : Int) ≤ ui) then
      padNlFuel ui padN fuel (pad ++ " ")
    else pad

/-- The newline-indent loop with its sufficient fuel budget. -/
def padNl (ui : Int) (padN : Nat) (pad : String) : String :=
  padNlFuel ui padN (padN + 2 + ui.toNat) pad

/-- Replace every newline in the usage text by the indent pad (models
`strings.ReplaceAll(usage, "\n", pad)` for the one-character pattern). -/
def replaceNl (pad : String) (s : String) : String :=
  String.mk (s.data.flatMap (fun c => if c = '\n' then pad.data else [c]))

/-- The name list rendered with prefixes and comma separators. -/
def renderNames (names : List String) : String :=
  String.intercalate ", " (names.map flagWithMinus)

/-- The word used to introduce a default value (the package-level
`Default` variable). -/
def defaultWord : String := "Default: "

/-- Minimal model of `fmt`'s `%q` for the strings appearing in default
values: double quotes with backslash escapes for the quote, the backslash
and the common control characters. -/
def goQuote (s : String) : String :=
  "\"" ++ String.mk (s.data.flatMap (fun c =>
    if c = '"' then ['\\', '"']
    else if c = '\\' then ['\\', '\\']
    else if c = '\n' then ['\\', 'n']
    else if c = '\t' then ['\\', 't']
    else [c])) ++ "\""

/-- The unpadded beginning of one usage line: optional four-space shim for
single-name long flags when multi-name flags exist, the rendered names,
the optional type hint, and the two-space gap. -/
def lineStart (haveMultiple : Bool) (names : List String) (typeExp : String) :
    String :=
  let base :=
    if haveMultiple ∧ rlen (names.headD "") > 1 ∧ names.length = 1 then "    "
    else ""
  let withNames := base ++ renderNames names
  let withType :=
    if goLen typeExp > 0 then withNames ++ " " ++ typeExp else withNames
  withType ++ "  "

/-- Rendering of one record, translated from the body of the output loop
of `PrintDefaults`.  `Names := fs.Name[:]` aliases the record's slice, so
the conditional swap of the first two names writes through to the record:
the function returns the (possibly mutated) record alongside the line. -/
def renderFlagLine (ui : Int) (padN : Nat) (pad : String) (haveMultiple : Bool)
    (fl : Flag) : String × Flag :=
  let names :=
    match fl.name with
    | n0 :: n1 :: restN =>
      if rlen n0 > 1 ∧ rlen n1 = 1 then n1 :: n0 :: restN else fl.name
    | _ => fl.name
  let fl1 := { fl with name := names }
  let lineP := padSpaces ui padN (lineStart haveMultiple names fl.typeExpected)
  let usage1 := replaceNl pad fl.usage
  let full :=
    match fl.value with
    | .present false => lineP ++ usage1
    | _ =>
      let defShown :=
        match fl.value with
        | .strV _ => goQuote fl.defValue
        | .user _ _ => goQuote fl.defValue
        | _ => fl.defValue
      lineP ++ usage1 ++ "  (" ++ defaultWord ++ defShown ++ ")"
  (full, fl1)

/-- One iteration of the output loop of `PrintDefaults`: render the
record at `idx`, append its line, and write the (possibly renamed) record
back. -/
def pdStep (f : FlagSet) (st : List String × List Flag) (idx : Nat) :
    List String × List Flag :=
  match st.2.get? idx with
  | none => st
  | some fl =>
    let (line, fl1) := renderFlagLine f.usageIndent (pdPadN f)
      (padNl f.usageIndent (pdPadN f) "\n") (pdHaveMultiple f) fl
    (st.1 ++ [line], st.2.set idx fl1)

/-- `FlagSet.PrintDefaults`: the scan, the shared padding computation, and
the per-record rendering loop, which threads the record mutations caused
by the in-place name swap.  Returns the printed lines and the flag set
with its (possibly renamed) records. -/
def printDefaults (f : FlagSet) : List String × FlagSet :=
  let res := (dedupIdxs f).foldl (pdStep f) ([], f.records)
  (res.1, { f with records := res.2 })

/-! ## Objects used by the claim theorems -/

/-- The registry for the C2 evaluation: one flag `port-range` of declared
arity 2 backed by a caller-supplied value that records the token lists
passed to its `Set` (the README's `--port-range 1080 1090` scenario,
registered through `Var`/`Func` with a needed count of 2). -/
def fsC2 : FlagSet :=
  { formal := [("port-range", 0)],
    records := [{ name := ["port-range"], usage := "", value := .user false [],
                  defValue := "", typeExpected := "", argsNeeded := 2 }] }

/-- The state the `splitOn` loop is in right after entering
`splitOn(" a", ' ', -1)`: the separator is the next character and the
segment buffer is empty. -/
def splitOnBadSt : SplitSt := ⟨[' ', 'a'], "", []⟩

/-- A registry that explicitly registers `help` as a present flag. -/
def fsHelp : FlagSet :=
  { formal := [("help", 0)],
    records := [{ name := ["help"], usage := "help flag", value := .present false,
                  defValue := "false", typeExpected := "", argsNeeded := 0 }] }

/-- The registry for the C3 evaluation: one present flag `x`. -/
def fsC3 : FlagSet :=
  { formal := [("x", 0)],
    records := [{ name := ["x"], usage := "", value := .present false,
                  defValue := "false", typeExpected := "", argsNeeded := 0 }] }

/-- The registry for the C8 evaluation: a zero-arity flag `b` whose
caller-supplied value declares the `IsBoolFlag` capability and records
the token lists passed to its `Set`. -/
def fsC8 : FlagSet :=
  { formal := [("b", 0)],
    records := [{ name := ["b"], usage := "", value := .user true [],
                  defValue := "", typeExpected := "", argsNeeded := 0 }] }

/-- The registry for the C9 evaluation, built through `Var` with the name
list `i install` (registration normalises the single-rune name behind the
multi-rune alias, so the stored order is `install, i`). -/
def fsC9 : FlagSet :=
  (Var {} (.present false) "i install" "usage text" "" 0).getD {}

/-- The registry for the C10 evaluation: two single-name flags whose
canonical names have byte length 5 / display width 5 (`abcde`) and byte
length 6 / display width 4 (`世界`). -/
def fsC10 : FlagSet :=
  { formal := [("abcde", 0), ("世界", 1)],
    records := [
      { name := ["abcde"], usage := "u1", value := .present false,
        defValue := "false", typeExpected := "", argsNeeded := 0 },
      { name := ["世界"], usage := "u2", value := .present false,
        defValue := "false", typeExpected := "", argsNeeded := 0 }] }

/-- Relation between a record before and after `PrintDefaults`: every
field except the name list is unchanged, and the name list is either
unchanged or has its first two entries swapped, which the rendering loop
does in place when the first name is multi-rune and the second is a
single rune. -/
def pdRecOk (old new : Flag) : Prop :=
  new.usage = old.usage ∧ new.value = old.value ∧ new.defValue = old.defValue ∧
  new.typeExpected = old.typeExpected ∧ new.argsNeeded = old.argsNeeded ∧
  (new.name = old.name ∨
    ∃ a b restN, old.name = a :: b :: restN ∧ rlen a > 1 ∧ rlen b = 1 ∧
      new.name = b :: a :: restN)

/-- `pdRecOk` lifted to the `get?` views of two record lists. -/
def pdRecOkO : Option Flag → Option Flag → Prop
  | none, none => True
  | some a, some b => pdRecOk a b
  | _, _ => False

/-! ## Helper lemmas -/

theorem stringWidth_append (a b : String) :
    stringWidth (a ++ b) = stringWidth a + stringWidth b := by
  simp [stringWidth, String.data_append]

theorem stringWidth_space (line : String) :
    stringWidth (line ++ " ") = stringWidth line + 1 := by
  rw [stringWidth_append]; rfl

theorem mem_insertActual (l : List String) (n m : String) (h : m ∈ l) :
    m ∈ insertActual l n := by
  unfold insertActual
  split
  · exact h
  · exact List.mem_append_left _ h

theorem map_flagSig_set (l : List Flag) (i : Nat) (fl : Flag) (v : Value)
    (h : l.get? i = some fl) :
    (l.set i { fl with value := v }).map flagSig = l.map flagSig := by
  induction l generalizing i with
  | nil => cases h
  | cons x xs ih =>
    cases i with
    | zero =>
      cases h
      simp [flagSig]
    | succ j =>
      simp only [List.set_cons_succ, List.map_cons]
      rw [ih j h]

/-- `parseOne` never touches the triggered set, the records or the
registry configuration. -/
theorem parseOne_pres (f : FlagSet)
    (r : FlagSet × String × Bool × Bool × Option ParseErr)
    (h : parseOne f = some r) :
    r.1.actual = f.actual ∧ r.1.records = f.records ∧ r.1.formal = f.formal ∧
    r.1.errorHandling = f.errorHandling := by
  unfold parseOne at h
  repeat'
    first
    | (exact Option.noConfusion h)
    | (cases h; exact ⟨rfl, rfl, rfl, rfl⟩)
    | (dsimp only at h)
    | split at h

/-- `parseFlagArg` only ever grows the triggered set and only ever changes
the `value` field of a record. -/
theorem parseFlagArg_pres (W : Nat) (f : FlagSet) (name : String) (long : Bool)
    (r : FlagSet × Bool × Option ParseErr)
    (h : parseFlagArg W f name long = some r) :
    (∀ n ∈ f.actual, n ∈ r.1.actual) ∧
    r.1.records.map flagSig = f.records.map flagSig ∧
    r.1.formal = f.formal ∧ r.1.errorHandling = f.errorHandling := by
  unfold parseFlagArg at h
  repeat'
    first
    | (exact Option.noConfusion h)
    | (cases h; exact ⟨fun n hn => hn, rfl, rfl, rfl⟩)
    | (cases h; exact ⟨fun n hn => mem_insertActual _ _ _ hn,
        map_flagSig_set _ _ _ _ ‹_›, rfl, rfl⟩)
    | (cases h; exact ⟨fun n hn => hn, map_flagSig_set _ _ _ _ ‹_›, rfl, rfl⟩)
    | (dsimp only at h)
    | split at h

/-- Over any run of the parse loop, the triggered set only grows and the
records change only in their `value` fields. -/
theorem parseLoop_pres (W : Nat) : ∀ (fuel : Nat) (f : FlagSet)
    (r : FlagSet × Outcome), parseLoop W fuel f = some r →
    (∀ n ∈ f.actual, n ∈ r.1.actual) ∧
    r.1.records.map flagSig = f.records.map flagSig := by
  intro fuel
  induction fuel with
  | zero => intro f r h; exact Option.noConfusion h
  | succ n ih =>
    intro f r h
    unfold parseLoop at h
    cases hpo : parseOne f with
    | none => rw [hpo] at h; exact Option.noConfusion h
    | some po =>
      rw [hpo] at h
      obtain ⟨f1, nm, long, fin0, err0⟩ := po
      obtain ⟨hp1a, hp1r, -, -⟩ := parseOne_pres f _ hpo
      dsimp only at h
      by_cases hc : ¬fin0 = true ∧ ¬nm = ""
      · rw [if_pos hc] at h
        cases hpf : parseFlagArg W f1 nm long with
        | none => rw [hpf] at h; exact Option.noConfusion h
        | some st =>
          rw [hpf] at h
          obtain ⟨f2, fin, err⟩ := st
          obtain ⟨hp2a, hp2r, -, -⟩ := parseFlagArg_pres W f1 nm long _ hpf
          have hcomp_a : ∀ m ∈ f.actual, m ∈ f2.actual := by
            intro m hm
            exact hp2a m (hp1a ▸ hm)
          have hcomp_r : f2.records.map flagSig = f.records.map flagSig := by
            rw [hp2r, hp1r]
          dsimp only at h
          cases err with
          | some e =>
            cases hEH : f2.errorHandling <;> rw [hEH] at h <;> cases h <;>
              exact ⟨hcomp_a, hcomp_r⟩
          | none =>
            by_cases hfin : fin = true
            · rw [if_pos hfin] at h
              cases h
              exact ⟨hcomp_a, hcomp_r⟩
            · rw [if_neg hfin] at h
              obtain ⟨ha, hr⟩ := ih f2 r h
              exact ⟨fun m hm => ha m (hcomp_a m hm), hr.trans hcomp_r⟩
      · rw [if_neg hc] at h
        dsimp only at h
        have hcomp_a : ∀ m ∈ f.actual, m ∈ f1.actual := by
          intro m hm; exact hp1a ▸ hm
        have hcomp_r : f1.records.map flagSig = f.records.map flagSig := by
          rw [hp1r]
        cases err0 with
        | some e =>
          cases hEH : f1.errorHandling <;> rw [hEH] at h <;> cases h <;>
            exact ⟨hcomp_a, hcomp_r⟩
        | none =>
          by_cases hfin : fin0 = true
          · rw [if_pos hfin] at h
            cases h
            exact ⟨hcomp_a, hcomp_r⟩
          · rw [if_neg hfin] at h
            obtain ⟨ha, hr⟩ := ih f1 r h
            exact ⟨fun m hm => ha m (hcomp_a m hm), hr.trans hcomp_r⟩

/-- `Parse` specialisation of `parseLoop_pres`. -/
theorem parse_pres (W : Nat) (f : FlagSet) (arguments : List String)
    (r : FlagSet × Outcome) (h : parse W f arguments = some r) :
    (∀ n ∈ f.actual, n ∈ r.1.actual) ∧
    r.1.records.map flagSig = f.records.map flagSig := by
  obtain ⟨ha, hr⟩ :=
    parseLoop_pres W (parseFuel arguments) (parseInit f arguments) r h
  exact ⟨fun n hn => ha n hn, hr⟩

/-- Width of the fueled padding loop: with sufficient fuel the result is
padded exactly to the active threshold (the computed `padN` when the
indent override is zero, the override otherwise). -/
theorem padSpacesFuel_width (ui : Int) (padN : Nat) :
    ∀ (fuel : Nat) (line : String),
      (if ui = 0 then padN else ui.toNat) ≤ stringWidth line + fuel →
      stringWidth (padSpacesFuel ui padN fuel line) =
        max (stringWidth line) (if ui = 0 then padN else ui.toNat) := by
  intro fuel
  induction fuel with
  | zero =>
    intro line hle
    unfold padSpacesFuel
    by_cases hui : ui = 0 <;>
      simp only [hui, if_pos, if_neg, if_true, if_false] at hle ⊢ <;> omega
  | succ n ih =>
    intro line hle
    unfold padSpacesFuel
    split
    case isTrue h =>
      rw [ih (line ++ " ") (by rw [stringWidth_space]; by_cases hui : ui = 0 <;>
        simp only [hui, if_true, if_false] at hle ⊢ <;> omega)]
      rw [stringWidth_space]
      by_cases hui : ui = 0
      · rcases h with ⟨h0, hw⟩ | hw
        · simp only [hui, if_true] at *
          omega
        · exfalso
          rw [hui] at hw
          omega
      · rcases h with ⟨h0, hw⟩ | hw
        · exact absurd h0 hui
        · simp only [hui, if_false] at *
          omega
    case isFalse h =>
      push_neg at h
      obtain ⟨h1, h2⟩ := h
      by_cases hui : ui = 0
      · have hge : padN ≤ stringWidth line := h1 hui
        simp only [hui, if_true]
        omega
      · simp only [hui, if_false]
        omega

/-- When byte length and display width agree on every listed name (for
instance for pure-ASCII names), the source's byte-guarded accumulation
computes the maximum display width. -/
theorem byteGuardMax_eq_maxWidth :
    ∀ (ns : List String) (acc : Nat),
      (∀ n ∈ ns, goLen n = stringWidth n) →
      byteGuardMax ns acc = ns.foldl (fun m s => max m (stringWidth s)) acc := by
  intro ns
  induction ns with
  | nil => intro acc _; rfl
  | cons x xs ih =>
    intro acc h
    unfold byteGuardMax
    rw [h x (List.mem_cons_self x xs)]
    dsimp only [List.foldl]
    rw [ih _ (fun n hn => h n (List.mem_cons_of_mem x hn))]
    congr 1
    split <;> omega

theorem listGetSet_self {α : Type} (l : List α) (i : Nat) (a b : α)
    (h : l.get? i = some b) : (l.set i a).get? i = some a := by
  induction l generalizing i with
  | nil => cases h
  | cons x xs ih =>
    cases i with
    | zero => rfl
    | succ j => exact ih j h

theorem listGetSet_other {α : Type} (l : List α) (i j : Nat) (a : α)
    (h : i ≠ j) : (l.set i a).get? j = l.get? j := by
  induction l generalizing i j with
  | nil => rfl
  | cons x xs ih =>
    cases i with
    | zero =>
      cases j with
      | zero => exact absurd rfl h
      | succ k => rfl
    | succ i1 =>
      cases j with
      | zero => rfl
      | succ k => exact ih i1 k (fun he => h (by rw [he]))

theorem pdRecOk_refl (fl : Flag) : pdRecOk fl fl :=
  ⟨rfl, rfl, rfl, rfl, rfl, Or.inl rfl⟩

/-- The in-place normalisation done by the rendering loop preserves
`pdRecOk` against the original record: a swap never happens twice, since
after a swap the first name is a single rune. -/
theorem pdRecOk_render (ui : Int) (p : Nat) (pad : String) (hm : Bool)
    (o fl : Flag) (h : pdRecOk o fl) :
    pdRecOk o (renderFlagLine ui p pad hm fl).2 := by
  obtain ⟨h1, h2, h3, h4, h5, h6⟩ := h
  obtain ⟨nm, us, va, dv, te, an⟩ := fl
  dsimp only at h1 h2 h3 h4 h5 h6
  unfold renderFlagLine
  dsimp only
  cases nm with
  | nil => exact ⟨h1, h2, h3, h4, h5, h6⟩
  | cons n0 tail =>
    cases tail with
    | nil => exact ⟨h1, h2, h3, h4, h5, h6⟩
    | cons n1 r =>
      dsimp only
      by_cases hc : rlen n0 > 1 ∧ rlen n1 = 1
      · rw [if_pos hc]
        refine ⟨h1, h2, h3, h4, h5, Or.inr ?_⟩
        rcases h6 with h6 | ⟨a, b, restN, hon, ha, hb, hnm⟩
        · exact ⟨n0, n1, r, h6 ▸ rfl, hc.1, hc.2, rfl⟩
        · exfalso
          obtain ⟨hb0, -⟩ := List.cons.inj hnm
          rw [hb0] at hc
          omega
      · rw [if_neg hc]
        exact ⟨h1, h2, h3, h4, h5, h6⟩

/-- The output loop of `PrintDefaults` maintains `pdRecOk` pointwise
between the original records and the threaded record list. -/
theorem pdStep_foldl_inv (f : FlagSet) :
    ∀ (idxs : List Nat) (st : List String × List Flag),
      (∀ i, pdRecOkO (f.records.get? i) (st.2.get? i)) →
      ∀ i, pdRecOkO (f.records.get? i) ((idxs.foldl (pdStep f) st).2.get? i) := by
  intro idxs
  induction idxs with
  | nil => intro st h i; exact h i
  | cons j js ih =>
    intro st h i
    dsimp only [List.foldl]
    apply ih
    intro k
    unfold pdStep
    cases hg : st.2.get? j with
    | none => exact h k
    | some fl =>
      dsimp only
      by_cases hk : j = k
      · subst hk
        rw [listGetSet_self _ _ _ fl hg]
        have hj := h j
        rw [hg] at hj
        cases hf : f.records.get? j with
        | none => rw [hf] at hj; exact absurd hj (by simp [pdRecOkO])
        | some o =>
          rw [hf] at hj
          simp only [pdRecOkO] at hj ⊢
          exact pdRecOk_render _ _ _ _ o fl hj
      · rw [listGetSet_other _ _ _ _ hk]
        exact h k

/-! ## Claim theorems -/

/-- C1 counterexample: `boolValue.Set` does not retain the prior value on
failure.  With stored value `true`, `Set(["zzz"])` returns a conversion
error, yet the stored value has been overwritten with `false` (the value
`strconv.ParseBool` returns alongside its error), so the previously
stored value is not retained. -/
theorem C1_boolSet_error_overwrites :
    valueSet 64 (Value.boolean true) ["zzz"] =
      some (Value.boolean false, some ConvErr.badParse) ∧
    Value.boolean false ≠ Value.boolean true := by
  decide

/-- C1 (amended): for every built-in value variant, `Set` computes its
new stored value and its error purely from the tokens — the stored value
is overwritten with the parser's returned value even when `Set` returns
an error (the zero value on a syntax error, the clamped value on a range
error), and a repeated successful `Set` simply overwrites. -/
theorem C1_set_ignores_prior_value (W : Nat) (v1 v2 : Value)
    (toks : List String) (htag : v1.tag = v2.tag) (hb : v1.builtin = true) :
    valueSet W v1 toks = valueSet W v2 toks := by
  cases v1 <;> cases v2 <;> simp_all [Value.tag, Value.builtin, valueSet]

/-- Witness for `C1_set_ignores_prior_value` at a concrete input: the
result of `Set(["1"])` on a `boolValue` holding `true` equals the result
on one holding `false`. -/
theorem C1_set_ignores_prior_value_witness :
    (Value.boolean true).tag = (Value.boolean false).tag ∧
    (Value.boolean true).builtin = true ∧
    valueSet 64 (Value.boolean true) ["1"] =
      valueSet 64 (Value.boolean false) ["1"] :=
  ⟨rfl, rfl,
    C1_set_ignores_prior_value 64 (Value.boolean true) (Value.boolean false)
      ["1"] rfl rfl⟩

/-- C2: evaluation of the code at the failing input.  Parsing
`--port-range 1080 1090` does pass exactly the next two tokens verbatim
to the value's `Set` (the recorded call is `[["1080", "1090"]]`) and the
flag is triggered — but the tokens are *not* consumed: the multi-arity
branch of `parseFlagArg` never advances `procArgs`, so both tokens are
re-scanned and end up as positional arguments. -/
theorem C2_multi_arity_tokens_not_consumed :
    (parse 64 fsC2 ["--port-range", "1080", "1090"]).map
        (fun r => (r.2, r.1.args, r.1.records.map Flag.value, r.1.actual)) =
      some (Outcome.ok, ["1080", "1090"],
        [Value.user false [["1080", "1090"]]], ["port-range"]) := by
  decide

/-- C4: evaluation of the code at the failing input.  On a string with a
leading separator the loop body returns to the identical state (the
`continue` skips the index increment), so the loop is a no-op for every
amount of fuel: `splitOn(" a", ' ', -1)` never returns. -/
theorem C4_splitOn_diverges :
    splitOnStep ' ' (-1) splitOnBadSt = Sum.inl splitOnBadSt ∧
    (∀ fuel, splitOnFuel ' ' (-1) fuel splitOnBadSt = none) ∧
    splitOn " a" ' ' (-1) = none := by
  have hstep : splitOnStep ' ' (-1) splitOnBadSt = Sum.inl splitOnBadSt := by
    decide
  have hfuel : ∀ fuel, splitOnFuel ' ' (-1) fuel splitOnBadSt = none := by
    intro fuel
    induction fuel with
    | zero => rfl
    | succ n ih =>
      simp only [splitOnFuel, hstep]
      exact ih
  exact ⟨hstep, hfuel, hfuel _⟩

/-- C5: evaluation of the code at the failing input.  On a platform whose
`int` is 32 bits wide, `intValue.Set(["2147483648"])` succeeds — the
parse is done with a hard-coded bit width of 64
(`strconv.ParseInt(s, 0, 64)`) and the value silently wraps to
`-2147483648` in the store — whereas the package's own
`TestIntFlagOverflow` demands an error here.  Range and syntax errors are
distinguished only at the fixed 64-bit boundary. -/
theorem C5_int_set_no_width_range_check :
    valueSet 32 (Value.intV 0) ["2147483648"] =
      some (Value.intV (-2147483648), none) ∧
    valueSet 32 (Value.uintV 0) ["4294967296"] =
      some (Value.uintV 0, none) ∧
    parseIntGo "123456789012345678901" 64 =
      (9223372036854775807, some ConvErr.outOfRange) ∧
    parseIntGo "abc" 64 = (0, some ConvErr.badParse) := by
  decide

/-- C6: resolving a name absent from the registry returns the
distinguished help error after invoking the usage path when the name is
`h` or `help`; otherwise it produces an unknown-flag error naming the
flag through `flagWithMinus` (`-x` for a single rune, `--name`
otherwise) and still invokes the usage path (via `failf`).  When a flag
named `help` is explicitly registered, parsing `--help` merely sets that
flag: no help sentinel, no usage invocation. -/
theorem C6_unknown_name_help_path (W : Nat) (f : FlagSet) (name : String)
    (long : Bool) (hnone : lookupName f.formal name = none) :
    ((name = "help" ∨ name = "h") →
      parseFlagArg W f name long =
        some ({ f with usageCalled := true }, false, some ParseErr.help)) ∧
    (name ≠ "help" → name ≠ "h" →
      parseFlagArg W f name long =
        some ({ f with usageCalled := true }, false,
          some (ParseErr.unknownFlag f.flagKnownAs (flagWithMinus name)))) ∧
    flagWithMinus "z" = "-z" ∧ flagWithMinus "zulu" = "--zulu" ∧
    (parse 64 fsHelp ["--help"]).map
        (fun r => (r.2, r.1.records.map Flag.value, r.1.actual, r.1.usageCalled)) =
      some (Outcome.ok, [Value.present true], ["help"], false) := by
  refine ⟨?_, ?_, by decide, by decide, by decide⟩
  · intro hcase
    unfold parseFlagArg
    rw [hnone]
    simp [hcase]
  · intro h1 h2
    unfold parseFlagArg
    rw [hnone]
    simp [h1, h2]

/-- Witness for `C6_unknown_name_help_path`: concrete unknown single-rune
flag `z` on an empty registry. -/
theorem C6_unknown_name_help_path_witness :
    lookupName (FlagSet.formal {}) "z" = none ∧
    parseFlagArg 64 {} "z" false =
      some ({ usageCalled := true : FlagSet }, false,
        some (ParseErr.unknownFlag "parameter" "-z")) :=
  ⟨rfl,
    (C6_unknown_name_help_path 64 {} "z" false rfl).2.1
      (by decide) (by decide)⟩

/-- C7: token classification.  With no pending cluster, a token exactly
`--` turns all remaining tokens into positionals and finishes the scan; a
token that is `-`, empty, or does not begin with `-` becomes positional —
together with all remaining tokens, finishing the scan, when
interspersion is disabled, or alone, with scanning continuing, when it is
enabled. -/
theorem C7_token_classification (f : FlagSet) (a : String) (rest : List String)
    (hpf : f.procFlag = "") (hargs : f.procArgs = a :: rest) :
    (a = "--" →
      parseOne f =
        some ({ f with args := f.args ++ rest, procArgs := [] },
          "", false, true, none)) ∧
    ((a = "-" ∨ a = "" ∨ strHead a ≠ some '-') →
      (f.allowIntersperse = true →
        parseOne f =
          some ({ f with args := f.args ++ [a], procArgs := rest },
            "", false, false, none)) ∧
      (f.allowIntersperse = false →
        parseOne f =
          some ({ f with args := f.args ++ (a :: rest), procArgs := [] },
            "", false, true, none))) := by
  constructor
  · intro ha
    subst ha
    unfold parseOne
    rw [hargs]
    simp [hpf, (by decide : strHead "--" = some '-')]
  · intro hcond
    constructor
    · intro hI
      unfold parseOne
      rw [hargs]
      simp only [hpf, ne_eq, not_true_eq_false, if_false]
      rw [if_pos hcond, if_pos hI]
    · intro hI
      unfold parseOne
      rw [hargs]
      simp only [hpf, ne_eq, not_true_eq_false, if_false]
      rw [if_pos hcond, if_neg (by simp [hI])]

/-- Witness for `C7_token_classification`: on the concrete state whose
remaining tokens are `["--", "x"]`, scanning finishes with `x`
positional. -/
theorem C7_token_classification_witness :
    parseOne { procArgs := ["--", "x"] } =
      some ({ procArgs := ([] : List String), args := ["x"] }, "", false, true,
        none) :=
  (C7_token_classification { procArgs := ["--", "x"] } "--" ["x"] rfl rfl).1 rfl


/-- C3 counterexample: the triggered set is not reset by `Parse`.  After a
first parse triggers `x`, a second `Parse` call on an empty argument list
leaves `x` in the triggered set (the source resets `args`, `procFlag` and
`procArgs` but never `actual`), where the claim demands it become
empty. -/
theorem C3_triggered_set_not_reset :
    ((parse 64 fsC3 ["-x"]).bind (fun r => parse 64 r.1 [])).map
        (fun r => (r.2, r.1.actual, r.1.args)) =
      some (Outcome.ok, ["x"], []) ∧ (["x"] : List String) ≠ [] := by
  decide

/-- C3 (amended): each `Parse` call resets the positional-argument output
and the in-progress token state before scanning — leaving the triggered
set, the records (hence cached defaults and previously assigned values)
untouched at entry — and the triggered set is never reset: it can only
grow across any number of parses. -/
theorem C3_parse_resets_args_not_actual :
    (∀ (f : FlagSet) (arguments : List String),
      (parseInit f arguments).args = [] ∧
      (parseInit f arguments).procFlag = "" ∧
      (parseInit f arguments).procArgs = arguments ∧
      (parseInit f arguments).parsed = true ∧
      (parseInit f arguments).actual = f.actual ∧
      (parseInit f arguments).records = f.records) ∧
    (∀ (W : Nat) (f : FlagSet) (arguments : List String) (r : FlagSet × Outcome),
      parse W f arguments = some r → ∀ n ∈ f.actual, n ∈ r.1.actual) := by
  refine ⟨fun f arguments => ⟨rfl, rfl, rfl, rfl, rfl, rfl⟩, ?_⟩
  intro W f arguments r h
  exact (parse_pres W f arguments r h).1

/-- Witness for `C3_parse_resets_args_not_actual`: a registry whose
triggered set already holds `x` still holds it after parsing an empty
argument list. -/
theorem C3_parse_resets_args_not_actual_witness :
    "x" ∈ (FlagSet.actual { fsC3 with actual := ["x"], parsed := true }) :=
  C3_parse_resets_args_not_actual.2 64 { fsC3 with actual := ["x"] } []
    ({ fsC3 with actual := ["x"], parsed := true }, Outcome.ok) (by decide) "x"
    (by decide)

/-- C8 counterexample: the boolean-capable exception does not exist.  The
registry holds a zero-arity flag `b` whose value answers the
`IsBoolFlag` capability query positively, yet parsing `-b0 x` does not
consume `0` as a boolean literal for `b`: `b`'s `Set` is invoked once
with no tokens, and `0` is reinterpreted as a further short flag of the
cluster, failing as the unknown flag `-0`. -/
theorem C8_boolean_literal_never_consumed :
    fsC8.records.map (fun fl => Value.isBoolCapable fl.value) = [true] ∧
    (parse 64 fsC8 ["-b0", "x"]).map
        (fun r => (r.2, r.1.records.map Flag.value)) =
      some (Outcome.err (ParseErr.unknownFlag "parameter" "-0"),
        [Value.user true [[]]]) := by
  decide

/-- C8 (amended): resolving a zero-arity flag from a short cluster leaves
a pending cluster buffer entirely untouched and reports no error,
*whatever* the value's boolean capability (the capability is never
consulted): the record's `Set` runs on an empty token list and the buffer
stays in `procFlag`; and the scanner then treats that pending buffer as
further single-rune flags of the same cluster, one rune at a time, as
long as argument tokens remain. -/
theorem C8_zero_arity_cluster_keeps_buffer :
    (∀ (W : Nat) (f : FlagSet) (name : String) (idx : Nat) (flag : Flag)
      (v1 : Value) (e : Option ConvErr),
      lookupName f.formal name = some idx →
      f.records.get? idx = some flag →
      flag.argsNeeded = 0 →
      valueSet W flag.value [] = some (v1, e) →
      parseFlagArg W f name false =
        some ({ f with records := f.records.set idx { flag with value := v1 },
                       actual := insertActual f.actual name }, false, none)) ∧
    (∀ (f : FlagSet) (a : String) (rest : List String),
      f.procArgs = a :: rest → f.procFlag ≠ "" →
      parseOne f =
        some ({ f with procFlag := (decodeFirst f.procFlag).2 },
          charToStr (decodeFirst f.procFlag).1, false, false, none)) := by
  constructor
  · intro W f name idx flag v1 e hlook hrec h0 hset
    unfold parseFlagArg
    rw [hlook]
    dsimp only
    rw [hrec]
    dsimp only
    rw [if_pos h0, hset]
    dsimp only
    rw [if_neg (by simp)]
  · intro f a rest hargs hpf
    unfold parseOne
    rw [hargs]
    dsimp only
    rw [if_pos hpf]

/-- Witness for `C8_zero_arity_cluster_keeps_buffer`: the mid-parse state
of `fsC8` on `-b0 x`, right after the tokenizer produced candidate `b`
with pending buffer `0`, resolves `b` with an empty `Set` call and keeps
the buffer; the next scanning step then offers `0` as a flag name. -/
theorem C8_zero_arity_cluster_keeps_buffer_witness :
    parseFlagArg 64 { fsC8 with procFlag := "0", procArgs := ["x"] } "b" false =
      some ({ fsC8 with
              procFlag := "0"
              procArgs := ["x"]
              records := [{ name := ["b"], usage := "", value := .user true [[]],
                            defValue := "", typeExpected := "", argsNeeded := 0 }]
              actual := ["b"] }, false, none) ∧
    parseOne { fsC8 with procFlag := "0", procArgs := ["x"], actual := ["b"] } =
      some ({ fsC8 with procFlag := "", procArgs := ["x"], actual := ["b"] },
        "0", false, false, none) := by
  constructor
  · exact C8_zero_arity_cluster_keeps_buffer.1 64
      { fsC8 with procFlag := "0", procArgs := ["x"] } "b" 0 _
      (Value.user true [[]]) none rfl rfl rfl rfl
  · exact C8_zero_arity_cluster_keeps_buffer.2
      { fsC8 with procFlag := "0", procArgs := ["x"], actual := ["b"] }
      "x" [] rfl (by decide)


/-- C9 counterexample: `PrintDefaults` mutates a record's name order in
place.  The registry registered through `Var` with name list `i install`
stores the names as `install, i`; after `PrintDefaults` the same record
reads `i, install` — not the same order as immediately after
registration. -/
theorem C9_printDefaults_renames_in_place :
    fsC9.records.map Flag.name = [["install", "i"]] ∧
    (printDefaults fsC9).2.records.map Flag.name = [["i", "install"]] ∧
    (["i", "install"] : List String) ≠ ["install", "i"] := by
  decide

/-- C9 (amended): arity and usage text are immutable after registration,
and `Parse` additionally never changes any record's name sequence (any
number of `Parse` calls change records only in their `value` field);
`PrintDefaults`, however, may swap a record's first two names in place —
exactly when the first is multi-rune and the second a single rune —
keeping every other field and the set of names intact. -/
theorem C9_record_immutability_mod_name_swap :
    (∀ (W : Nat) (f : FlagSet) (arguments : List String) (r : FlagSet × Outcome),
      parse W f arguments = some r →
      r.1.records.map flagSig = f.records.map flagSig) ∧
    (∀ (f : FlagSet) (i : Nat),
      pdRecOkO (f.records.get? i) ((printDefaults f).2.records.get? i)) := by
  constructor
  · intro W f arguments r h
    exact (parse_pres W f arguments r h).2
  · intro f i
    unfold printDefaults
    dsimp only
    apply pdStep_foldl_inv
    intro k
    cases f.records.get? k <;> simp [pdRecOkO, pdRecOk_refl]

/-- Witness for `C9_record_immutability_mod_name_swap`: parsing `-x` on
the concrete registry `fsC3` leaves every field but the value unchanged
(the name, usage and arity signatures agree before and after). -/
theorem C9_record_immutability_mod_name_swap_witness :
    (FlagSet.records { fsC3 with
        parsed := true
        actual := ["x"]
        records := [{ name := ["x"], usage := "", value := Value.present true,
                      defValue := "false", typeExpected := "", argsNeeded := 0 }]
      }).map flagSig = fsC3.records.map flagSig :=
  C9_record_immutability_mod_name_swap.1 64 fsC3 ["-x"]
    ({ fsC3 with
        parsed := true
        actual := ["x"]
        records := [{ name := ["x"], usage := "", value := Value.present true,
                      defValue := "false", typeExpected := "", argsNeeded := 0 }]
      }, Outcome.ok)
    (by decide)

/-- C10 counterexample: the shared column value is not the maximum
display width.  On `fsC10` (names `abcde`, byte length 5 = width 5, and
`世界`, byte length 6 but width 4) the byte-length-guarded accumulation
yields 4 while the maximum display width is 5; consequently the two
rendered name columns end at widths 9 and 8 instead of being padded to
the common 5 + 4 = 9 the claim prescribes. -/
theorem C10_shared_width_not_display_max :
    pdMaxLen fsC10 = 4 ∧ specMaxDisplayWidth fsC10 = 5 ∧ (4 : Nat) ≠ 5 ∧
    stringWidth (padSpaces 0 (pdPadN fsC10) (lineStart false ["abcde"] "")) = 9 ∧
    stringWidth (padSpaces 0 (pdPadN fsC10) (lineStart false ["世界"] "")) = 8 := by
  decide

/-- C10 (amended): the padding threshold is the computed shared value
plus 4, or plus 8 when any record has more than one name; every line is
padded to exactly that threshold (or the caller-set usage-indent
override, which replaces the computed threshold entirely); and the
shared value is computed by the byte-length-guarded scan, which equals
the maximum display width whenever byte length and display width agree
on all canonical first names (in particular for pure-ASCII names). -/
theorem C10_padding_semantics :
    (∀ f : FlagSet, pdPadN f =
      pdMaxLen f + (if pdHaveMultiple f then 8 else 4)) ∧
    (∀ (ui : Int) (padN : Nat) (line : String),
      stringWidth (padSpaces ui padN line) =
        max (stringWidth line) (if ui = 0 then padN else ui.toNat)) ∧
    (∀ f : FlagSet, (∀ n ∈ pdNames f, goLen n = stringWidth n) →
      pdMaxLen f = specMaxDisplayWidth f) := by
  refine ⟨?_, ?_, ?_⟩
  · intro f
    unfold pdPadN
    split <;> rfl
  · intro ui padN line
    exact padSpacesFuel_width ui padN (padN + ui.toNat + 1) line (by
      by_cases hui : ui = 0 <;> simp only [hui, if_true, if_false] <;> omega)
  · intro f h
    exact byteGuardMax_eq_maxWidth (pdNames f) 0 h

/-- Witness for `C10_padding_semantics`: on the all-ASCII registry
`fsHelp` the byte-guarded scan equals the maximum display width. -/
theorem C10_padding_semantics_witness :
    pdMaxLen fsHelp = specMaxDisplayWidth fsHelp :=
  C10_padding_semantics.2.2 fsHelp (by decide)

end GoParams
